import Mathlib

/-!
Shallow embedding of the Pix handle lifecycle core of leptonica
(`src/pix1.c`): constructors, reference counting clone/destroy,
value copy, resize-on-copy, and the field accessors.

The heap is modelled explicitly: pix headers and pixel buffers live in
association lists keyed by allocation identifiers, so that buffer
identity (the `data` pointer), allocation, and deallocation are
observable.  Releases and diagnostic reports are recorded in an event
log.  The pixel-buffer allocator of the registry can be switched to a
failing one (`allocFail`), modelling a `pix_malloc` that returns NULL.

Machine integers (`l_int32`) are modelled as `Int`; the dimensions the
claims quantify over are far below 2^31, where the C arithmetic agrees
with `Int`.  Fallible C functions returning `PIX*` return
`Option PixId`; status-returning functions return `Int` (0 ok, 1 error,
as in the source).
-/

namespace Lepto

/-- `UNDEF` from environ.h, the error sentinel of the integer getters. -/
def UNDEF : Int := -1

/-- `IFF_UNKNOWN`, the default input format tag (value 0). -/
def IFF_UNKNOWN : Int := 0

/-- Identifier of a heap-allocated pix header (a `PIX*` value). -/
abbrev PixId := Nat

/-- Identifier of a heap-allocated pixel buffer (an `l_uint32*` value). -/
abbrev BufId := Nat

/-- The PIX record: geometry, stride, refcount, resolution, input
format, owned text, owned colormap (modelled as an immutable value),
and the pixel buffer reference.  Mirrors `struct Pix` as used by
pix1.c. -/
structure Pix where
  w : Int
  h : Int
  d : Int
  wpl : Int
  refcount : Int
  xres : Int
  yres : Int
  informat : Int
  text : Option String
  colormap : Option (List Int)
  data : Option BufId
deriving DecidableEq

/-- The all-zero record produced by `CALLOC(1, sizeof(PIX))`. -/
def zeroPix : Pix :=
  { w := 0, h := 0, d := 0, wpl := 0, refcount := 0, xres := 0, yres := 0
    informat := 0, text := none, colormap := none, data := none }

/-- Observable events: releases of the four owned resources and
diagnostic reports on the error channel. -/
inductive Event where
  | freeBuf (b : BufId)
  | freeText (p : PixId)
  | freeCmap (p : PixId)
  | freePix (p : PixId)
  | warn (msg : String)
deriving DecidableEq

/-- The program state: live pix headers, live pixel buffers (byte
contents), fresh-address counters, the allocator's failure switch, and
the event log. -/
structure Mem where
  pixes : List (PixId × Pix)
  bufs : List (BufId × List Nat)
  nextPix : PixId
  nextBuf : BufId
  allocFail : Bool
  events : List Event
deriving DecidableEq

/-- The empty initial state with a working allocator. -/
def initMem : Mem :=
  { pixes := [], bufs := [], nextPix := 0, nextBuf := 0
    allocFail := false, events := [] }

/-- Lookup of the first binding of a key in an association list. -/
def lookupA {β : Type} (k : Nat) : List (Nat × β) → Option β
  | [] => none
  | kv :: rest => if kv.1 = k then some kv.2 else lookupA k rest

/-- Replace the value of the first binding of a key (an in-place store
through a pointer); leaves the list unchanged if the key is absent. -/
def setA {β : Type} (k : Nat) (v : β) : List (Nat × β) → List (Nat × β)
  | [] => []
  | kv :: rest => if kv.1 = k then (k, v) :: rest else kv :: setA k v rest

/-- Remove the first binding of a key (deallocation). -/
def removeA {β : Type} (k : Nat) : List (Nat × β) → List (Nat × β)
  | [] => []
  | kv :: rest => if kv.1 = k then rest else kv :: removeA k rest

/-- Store an updated pix record at an existing header address. -/
def Mem.setPix (m : Mem) (p : PixId) (px : Pix) : Mem :=
  { m with pixes := setA p px m.pixes }

/-- Append one event to the log. -/
def Mem.logE (m : Mem) (e : Event) : Mem :=
  { m with events := m.events ++ [e] }

/-- Report a diagnostic (the `ERROR_INT` / `ERROR_PTR` / `L_WARNING`
channel of the source). -/
def Mem.warnE (m : Mem) (msg : String) : Mem :=
  m.logE (Event.warn msg)

/-- All live header addresses are below the fresh-address counter, and
likewise for buffers: the well-formedness every real heap satisfies. -/
def wfm (m : Mem) : Bool :=
  m.pixes.all (fun kv => kv.1 < m.nextPix) &&
  m.bufs.all (fun kv => kv.1 < m.nextBuf)

/-! ### Pix memory management (`pix_malloc`, `pix_free`)

`pix_malloc` draws from the allocator registry; `allocFail = true`
models a registry whose allocator returns NULL.  Fresh buffer contents
are modelled as zero bytes (the model's deterministic choice for
uninitialized memory; no claim depends on uninitialized contents). -/

/-- `pix_malloc(size)`: allocate `size` bytes for a pixel buffer, or
fail when the registry's allocator fails. -/
def pix_malloc (m : Mem) (size : Nat) : Option BufId × Mem :=
  if m.allocFail then (none, m)
  else (some m.nextBuf,
        { m with bufs := m.bufs ++ [(m.nextBuf, List.replicate size 0)]
                 nextBuf := m.nextBuf + 1 })

/-- `pix_free(data)`: release a pixel buffer back to the registry. -/
def pixfreeBuf (m : Mem) (b : BufId) : Mem :=
  { m with bufs := removeA b m.bufs, events := m.events ++ [Event.freeBuf b] }

/-! ### Pure accessors (getters)

The C getters return `UNDEF` (or NULL / 0) on a null argument; their
diagnostic print has no effect on program state and is not logged for
the pure reads. -/

/-- `pixGetWidth`. -/
def pixGetWidth (m : Mem) (pix : Option PixId) : Int :=
  match pix with
  | none => UNDEF
  | some p =>
    match lookupA p m.pixes with
    | none => UNDEF
    | some px => px.w

/-- `pixGetHeight`. -/
def pixGetHeight (m : Mem) (pix : Option PixId) : Int :=
  match pix with
  | none => UNDEF
  | some p =>
    match lookupA p m.pixes with
    | none => UNDEF
    | some px => px.h

/-- `pixGetDepth`. -/
def pixGetDepth (m : Mem) (pix : Option PixId) : Int :=
  match pix with
  | none => UNDEF
  | some p =>
    match lookupA p m.pixes with
    | none => UNDEF
    | some px => px.d

/-- `pixGetWpl`. -/
def pixGetWpl (m : Mem) (pix : Option PixId) : Int :=
  match pix with
  | none => UNDEF
  | some p =>
    match lookupA p m.pixes with
    | none => UNDEF
    | some px => px.wpl

/-- `pixGetRefcount`. -/
def pixGetRefcount (m : Mem) (pix : Option PixId) : Int :=
  match pix with
  | none => UNDEF
  | some p =>
    match lookupA p m.pixes with
    | none => UNDEF
    | some px => px.refcount

/-- `pixGetXRes` (returns 0 on a null argument). -/
def pixGetXRes (m : Mem) (pix : Option PixId) : Int :=
  match pix with
  | none => 0
  | some p =>
    match lookupA p m.pixes with
    | none => 0
    | some px => px.xres

/-- `pixGetYRes` (returns 0 on a null argument). -/
def pixGetYRes (m : Mem) (pix : Option PixId) : Int :=
  match pix with
  | none => 0
  | some p =>
    match lookupA p m.pixes with
    | none => 0
    | some px => px.yres

/-- `pixGetInputFormat`. -/
def pixGetInputFormat (m : Mem) (pix : Option PixId) : Int :=
  match pix with
  | none => UNDEF
  | some p =>
    match lookupA p m.pixes with
    | none => UNDEF
    | some px => px.informat

/-- `pixGetText`: returns the borrowed text string (NULL on error). -/
def pixGetText (m : Mem) (pix : Option PixId) : Option String :=
  match pix with
  | none => none
  | some p =>
    match lookupA p m.pixes with
    | none => none
    | some px => px.text

/-- `pixGetColormap` (NULL on error). -/
def pixGetColormap (m : Mem) (pix : Option PixId) : Option (List Int) :=
  match pix with
  | none => none
  | some p =>
    match lookupA p m.pixes with
    | none => none
    | some px => px.colormap

/-- `pixGetData` (NULL on error). -/
def pixGetData (m : Mem) (pix : Option PixId) : Option BufId :=
  match pix with
  | none => none
  | some p =>
    match lookupA p m.pixes with
    | none => none
    | some px => px.data

/-- `pixGetDimensions`: the three optional out-parameters are modelled
as a returned triple next to the status. -/
def pixGetDimensions (m : Mem) (pix : Option PixId) : Int × Int × Int × Int :=
  match pix with
  | none => (1, 0, 0, 0)
  | some p =>
    match lookupA p m.pixes with
    | none => (1, 0, 0, 0)
    | some px => (0, px.w, px.h, px.d)

/-! ### Setters

Each returns the C status (`0` ok, `1` error) together with the new
state.  A live-lookup failure models a dangling pointer, which the C
code cannot detect (undefined behavior); the model makes it inert. -/

/-- `pixSetWidth`: a negative width is clamped to 0 and reported. -/
def pixSetWidth (m : Mem) (pix : Option PixId) (width : Int) : Int × Mem :=
  match pix with
  | none => (1, m.warnE "pix not defined")
  | some p =>
    match lookupA p m.pixes with
    | none => (1, m)
    | some px =>
      if width < 0 then (1, (m.setPix p { px with w := 0 }).warnE "width must be >= 0")
      else (0, m.setPix p { px with w := width })

/-- `pixSetHeight`: a negative height is clamped to 0 and reported. -/
def pixSetHeight (m : Mem) (pix : Option PixId) (height : Int) : Int × Mem :=
  match pix with
  | none => (1, m.warnE "pix not defined")
  | some p =>
    match lookupA p m.pixes with
    | none => (1, m)
    | some px =>
      if height < 0 then (1, (m.setPix p { px with h := 0 }).warnE "h must be >= 0")
      else (0, m.setPix p { px with h := height })

/-- `pixSetDepth`: a depth below 1 is rejected without mutation. -/
def pixSetDepth (m : Mem) (pix : Option PixId) (depth : Int) : Int × Mem :=
  match pix with
  | none => (1, m.warnE "pix not defined")
  | some p =>
    match lookupA p m.pixes with
    | none => (1, m)
    | some px =>
      if depth < 1 then (1, m.warnE "d must be >= 1")
      else (0, m.setPix p { px with d := depth })

/-- `pixSetWpl`. -/
def pixSetWpl (m : Mem) (pix : Option PixId) (wpl : Int) : Int × Mem :=
  match pix with
  | none => (1, m.warnE "pix not defined")
  | some p =>
    match lookupA p m.pixes with
    | none => (1, m)
    | some px => (0, m.setPix p { px with wpl := wpl })

/-- `pixChangeRefcount`. -/
def pixChangeRefcount (m : Mem) (pix : Option PixId) (delta : Int) : Int × Mem :=
  match pix with
  | none => (1, m.warnE "pix not defined")
  | some p =>
    match lookupA p m.pixes with
    | none => (1, m)
    | some px => (0, m.setPix p { px with refcount := px.refcount + delta })

/-- `pixSetXRes`. -/
def pixSetXRes (m : Mem) (pix : Option PixId) (res : Int) : Int × Mem :=
  match pix with
  | none => (1, m.warnE "pix not defined")
  | some p =>
    match lookupA p m.pixes with
    | none => (1, m)
    | some px => (0, m.setPix p { px with xres := res })

/-- `pixSetYRes`. -/
def pixSetYRes (m : Mem) (pix : Option PixId) (res : Int) : Int × Mem :=
  match pix with
  | none => (1, m.warnE "pix not defined")
  | some p =>
    match lookupA p m.pixes with
    | none => (1, m)
    | some px => (0, m.setPix p { px with yres := res })

/-- `pixSetInputFormat`. -/
def pixSetInputFormat (m : Mem) (pix : Option PixId) (informat : Int) : Int × Mem :=
  match pix with
  | none => (1, m.warnE "pix not defined")
  | some p =>
    match lookupA p m.pixes with
    | none => (1, m)
    | some px => (0, m.setPix p { px with informat := informat })

/-- Modelled from the spec: `stringReplace` (utils.c, not under src/)
frees any string currently owned by the destination slot and stores a
deep copy of the argument (NULL stores NULL).  Strings are immutable
values here, so the copy is the value itself; the release of a plain
string outside `pixFree` is not tracked by the event log. -/
def stringReplace (s : Option String) : Option String := s

/-- `pixSetText`: replaces any existing text with a copy of the input
via `stringReplace`. -/
def pixSetText (m : Mem) (pix : Option PixId) (textstring : Option String) :
    Int × Mem :=
  match pix with
  | none => (1, m.warnE "pix not defined")
  | some p =>
    match lookupA p m.pixes with
    | none => (1, m)
    | some px => (0, m.setPix p { px with text := stringReplace textstring })

/-- Modelled from the spec: `pixcmapCopy` (colormap.c, not under src/)
deep-copies a colormap.  Colormaps are modelled as immutable values, so
the copy is the same value; its allocation is modelled as always
succeeding. -/
def pixcmapCopy (c : List Int) : Option (List Int) := some c

/-- `pixDestroyColormap`: destroys the colormap if present (the release
performed by `pixcmapDestroy`, colormap.c, is recorded as a `freeCmap`
event) and nulls the field. -/
def pixDestroyColormap (m : Mem) (pix : Option PixId) : Int × Mem :=
  match pix with
  | none => (1, m.warnE "pix not defined")
  | some p =>
    match lookupA p m.pixes with
    | none => (1, m)
    | some px =>
      match px.colormap with
      | none => (0, m)
      | some _ =>
        (0, (m.logE (Event.freeCmap p)).setPix p { px with colormap := none })

/-- `pixSetColormap`: destroys any prior colormap, then adopts the new
one by ownership transfer. -/
def pixSetColormap (m : Mem) (pix : Option PixId) (colormap : Option (List Int)) :
    Int × Mem :=
  match pix with
  | none => (1, m.warnE "pix not defined")
  | some p =>
    let m := (pixDestroyColormap m (some p)).2
    match lookupA p m.pixes with
    | none => (1, m)
    | some px => (0, m.setPix p { px with colormap := colormap })

/-- `pixSetData`: replaces the buffer reference without freeing the old
buffer. -/
def pixSetData (m : Mem) (pix : Option PixId) (data : Option BufId) : Int × Mem :=
  match pix with
  | none => (1, m.warnE "pix not defined")
  | some p =>
    match lookupA p m.pixes with
    | none => (1, m)
    | some px => (0, m.setPix p { px with data := data })

/-! ### Buffer byte operations (`memset`, `memcpy`) -/

/-- `memset(buf, 0, n)`: zero the first `n` bytes of a live buffer. -/
def memsetBuf (m : Mem) (b : BufId) (n : Nat) : Mem :=
  match lookupA b m.bufs with
  | none => m
  | some c => { m with bufs := setA b (List.replicate n 0 ++ c.drop n) m.bufs }

/-- `memcpy(dst, src, n)` between two live buffers (the source is read
first, as C does with distinct allocations). -/
def memcpyBuf (m : Mem) (dst src : BufId) (n : Nat) : Mem :=
  match lookupA src m.bufs, lookupA dst m.bufs with
  | some s, some dcon => { m with bufs := setA dst (s.take n ++ dcon.drop n) m.bufs }
  | _, _ => m

/-! ### Pix creation -/

/-- `pixCreateHeader(width, height, depth)`: validates the depth
against \x7b1, 2, 4, 8, 16, 24, 32\x7d and `width, height > 0`, then
callocs a header at a fresh address, runs the width/height/depth
setters, computes `wpl`, and writes `refcount = 1` and
`informat = IFF_UNKNOWN` directly.  The header calloc is the platform
allocator, not the pixel-buffer registry, and is modelled as always
succeeding. -/
def pixCreateHeader (m : Mem) (width height depth : Int) : Option PixId × Mem :=
  if ¬(depth = 1 ∨ depth = 2 ∨ depth = 4 ∨ depth = 8 ∨ depth = 16 ∨
       depth = 24 ∨ depth = 32) then
    (none, m.warnE "depth must be \x7b1, 2, 4, 8, 16, 24, 32\x7d")
  else if width ≤ 0 then (none, m.warnE "width must be > 0")
  else if height ≤ 0 then (none, m.warnE "height must be > 0")
  else
    let p := m.nextPix
    let m := { m with pixes := m.pixes ++ [(p, zeroPix)], nextPix := p + 1 }
    let m := (pixSetWidth m (some p) width).2
    let m := (pixSetHeight m (some p) height).2
    let m := (pixSetDepth m (some p) depth).2
    let wpl := (width * depth + 31) / 32
    let m := (pixSetWpl m (some p) wpl).2
    let m :=
      match lookupA p m.pixes with
      | none => m
      | some px => m.setPix p { px with refcount := 1, informat := IFF_UNKNOWN }
    (some p, m)

/-- Modelled from the spec: `pixSetPadBits` (pix2.c, not under src/)
deterministically clears the pad bits beyond the logical width in the
last word of each scanline.  Fresh allocations in this model are zero
bytes already, so clearing pad bits to 0 is a state-preserving no-op
(it never changes the buffer's length or identity). -/
def pixSetPadBits (m : Mem) (pix : Option PixId) (val : Int) : Int × Mem :=
  match pix, val with
  | _, _ => (0, m)

/-- `pixCreateNoInit(width, height, depth)`: header plus a
`4 * wpl * height`-byte buffer from the registry, then pad-bit
clearing.  On allocation failure the header is not destroyed (as in
the source) and NULL is returned. -/
def pixCreateNoInit (m : Mem) (width height depth : Int) : Option PixId × Mem :=
  match pixCreateHeader m width height depth with
  | (none, m) => (none, m)
  | (some p, m) =>
    let wpl := pixGetWpl m (some p)
    match pix_malloc m (4 * wpl * height).toNat with
    | (none, m) => (none, m.warnE "MALLOC fail for data")
    | (some b, m) =>
      let m := (pixSetData m (some p) (some b)).2
      let m := (pixSetPadBits m (some p) 0).2
      (some p, m)

/-- `pixCreate(width, height, depth)`: `pixCreateNoInit` plus a full
zero fill of the buffer. -/
def pixCreate (m : Mem) (width height depth : Int) : Option PixId × Mem :=
  match pixCreateNoInit m width height depth with
  | (none, m) => (none, m.warnE "pixd not made")
  | (some p, m) =>
    let m :=
      match pixGetData m (some p) with
      | none => m
      | some b => memsetBuf m b (4 * pixGetWpl m (some p) * pixGetHeight m (some p)).toNat
    (some p, m)

/-! ### Copy helpers -/

/-- `pixCopyResolution(pixd, pixs)`. -/
def pixCopyResolution (m : Mem) (pixd pixs : Option PixId) : Int × Mem :=
  if pixs = none then (1, m.warnE "pixs not defined")
  else if pixd = none then (1, m.warnE "pixd not defined")
  else
    let m := (pixSetXRes m pixd (pixGetXRes m pixs)).2
    let m := (pixSetYRes m pixd (pixGetYRes m pixs)).2
    (0, m)

/-- `pixCopyInputFormat(pixd, pixs)`. -/
def pixCopyInputFormat (m : Mem) (pixd pixs : Option PixId) : Int × Mem :=
  if pixs = none then (1, m.warnE "pixs not defined")
  else if pixd = none then (1, m.warnE "pixd not defined")
  else (pixSetInputFormat m pixd (pixGetInputFormat m pixs))

/-- `pixCopyText(pixd, pixs)`. -/
def pixCopyText (m : Mem) (pixd pixs : Option PixId) : Int × Mem :=
  if pixs = none then (1, m.warnE "pixs not defined")
  else if pixd = none then (1, m.warnE "pixd not defined")
  else pixSetText m pixd (pixGetText m pixs)

/-- `pixCopyColormap(pixd, pixs)`: deep-copies the source colormap onto
the destination; absence of a source colormap is not an error. -/
def pixCopyColormap (m : Mem) (pixd pixs : Option PixId) : Int × Mem :=
  if pixs = none then (1, m.warnE "pixs not defined")
  else if pixd = none then (1, m.warnE "pixd not defined")
  else
    match pixGetColormap m pixs with
    | none => (0, m)
    | some cmaps =>
      match pixcmapCopy cmaps with
      | none => (1, m.warnE "cmapd not made")
      | some cmapd => pixSetColormap m pixd (some cmapd)

/-! ### Template construction -/

/-- `pixCreateTemplateNoInit(pixs)`: a fresh identity with the source's
geometry, resolution, colormap (deep copy), text (deep copy) and input
format, and a freshly allocated, uninitialized buffer. -/
def pixCreateTemplateNoInit (m : Mem) (pixs : Option PixId) : Option PixId × Mem :=
  if pixs = none then (none, m.warnE "pixs not defined")
  else
    let dims := pixGetDimensions m pixs
    match pixCreateNoInit m dims.2.1 dims.2.2.1 dims.2.2.2 with
    | (none, m) => (none, m.warnE "pixd not made")
    | (some p, m) =>
      let m := (pixCopyResolution m (some p) pixs).2
      let m := (pixCopyColormap m (some p) pixs).2
      let m := (pixCopyText m (some p) pixs).2
      let m := (pixCopyInputFormat m (some p) pixs).2
      (some p, m)

/-- `pixCreateTemplate(pixs)`: `pixCreateTemplateNoInit` plus a full
zero fill of the new buffer. -/
def pixCreateTemplate (m : Mem) (pixs : Option PixId) : Option PixId × Mem :=
  if pixs = none then (none, m.warnE "pixs not defined")
  else
    match pixCreateTemplateNoInit m pixs with
    | (none, m) => (none, m.warnE "pixd not made")
    | (some p, m) =>
      let m :=
        match pixGetData m (some p) with
        | none => m
        | some b =>
          memsetBuf m b (4 * pixGetWpl m (some p) * pixGetHeight m (some p)).toNat
      (some p, m)

/-! ### Clone / destroy -/

/-- `pixClone(pixs)`: bump the refcount and return the same identity. -/
def pixClone (m : Mem) (pixs : Option PixId) : Option PixId × Mem :=
  match pixs with
  | none => (none, m.warnE "pixs not defined")
  | some p => (some p, (pixChangeRefcount m (some p) 1).2)

/-- `pixFree(pix)`: decrement the refcount; at `≤ 0`, release the
buffer, the text, the colormap and the header, in that order. -/
def pixFree (m : Mem) (pix : Option PixId) : Mem :=
  match pix with
  | none => m
  | some p =>
    let m := (pixChangeRefcount m (some p) (-1)).2
    if pixGetRefcount m (some p) ≤ 0 then
      let m :=
        match pixGetData m (some p) with
        | none => m
        | some b => pixfreeBuf m b
      let m :=
        match pixGetText m (some p) with
        | none => m
        | some _ => m.logE (Event.freeText p)
      let m := (pixDestroyColormap m (some p)).2
      { m with pixes := removeA p m.pixes, events := m.events ++ [Event.freePix p] }
    else m

/-- `pixDestroy(&pix)`: the reference slot is `Option (Option PixId)`:
`none` models a null slot address (`ppix == NULL`, reported), `some
none` an empty slot, `some (some p)` a slot holding a reference.  The
returned slot is what `*ppix` holds afterwards. -/
def pixDestroy (m : Mem) (ppix : Option (Option PixId)) :
    Option (Option PixId) × Mem :=
  match ppix with
  | none => (none, m.warnE "ptr address is null!")
  | some none => (some none, m)
  | some (some p) => (some none, pixFree m (some p))

/-! ### Copy and resize -/

/-- `pixSizesEqual(pix1, pix2)`: 1 when the two have the same
width/height/depth (in particular when they are one identity),
0 otherwise or on a null argument. -/
def pixSizesEqual (m : Mem) (pix1 pix2 : Option PixId) : Int × Mem :=
  if pix1 = none ∨ pix2 = none then
    (0, m.warnE "pix1 and pix2 not both defined")
  else if pix1 = pix2 then (1, m)
  else if pixGetWidth m pix1 ≠ pixGetWidth m pix2 ∨
          pixGetHeight m pix1 ≠ pixGetHeight m pix2 ∨
          pixGetDepth m pix1 ≠ pixGetDepth m pix2 then (0, m)
  else (1, m)

/-- `pixResizeImageData(pixd, pixs)`: nothing to do when sizes are
equal; otherwise writes the source's width/height/depth/wpl into the
destination, frees the destination's old buffer, and only then asks
the registry for the new buffer — on allocation failure it returns 1
with the fields already overwritten and the old buffer already gone. -/
def pixResizeImageData (m : Mem) (pixd pixs : Option PixId) : Int × Mem :=
  if pixs = none then (1, m.warnE "pixs not defined")
  else if pixd = none then (1, m.warnE "pixd not defined")
  else
    match pixSizesEqual m pixs pixd with
    | (eq, m) =>
      if eq = 1 then (0, m)
      else
        let dims := pixGetDimensions m pixs
        let wpl := pixGetWpl m pixs
        let m := (pixSetWidth m pixd dims.2.1).2
        let m := (pixSetHeight m pixd dims.2.2.1).2
        let m := (pixSetDepth m pixd dims.2.2.2).2
        let m := (pixSetWpl m pixd wpl).2
        let bytes := 4 * wpl * dims.2.2.1
        let m :=
          match pixGetData m pixd with
          | none => m
          | some b => pixfreeBuf m b
        match pix_malloc m bytes.toNat with
        | (none, m) => (1, m.warnE "MALLOC fail for data")
        | (some b, m) => (0, (pixSetData m pixd (some b)).2)

/-- `pixCopy(pixd, pixs)`: the three modes — fresh copy when `pixd` is
null, no-op when `pixd` is `pixs`, and in-place overwrite (resize if
the geometry differs, then metadata and pixel bytes) otherwise. -/
def pixCopy (m : Mem) (pixd pixs : Option PixId) : Option PixId × Mem :=
  if pixs = none then (none, m.warnE "pixs not defined")
  else if pixs = pixd then (pixd, m)
  else
    let bytes := 4 * pixGetWpl m pixs * pixGetHeight m pixs
    match pixd with
    | none =>
      match pixCreateTemplate m pixs with
      | (none, m) => (none, m.warnE "pixd not made")
      | (some pd, m) =>
        let m :=
          match pixGetData m pixs, pixGetData m (some pd) with
          | some bs, some bd => memcpyBuf m bd bs bytes.toNat
          | _, _ => m
        (some pd, m)
    | some pd =>
      let m := (pixResizeImageData m (some pd) pixs).2
      let m := (pixCopyColormap m (some pd) pixs).2
      let m := (pixCopyResolution m (some pd) pixs).2
      let m := (pixCopyInputFormat m (some pd) pixs).2
      let m := (pixCopyText m (some pd) pixs).2
      let m :=
        match pixGetData m pixs, pixGetData m (some pd) with
        | some bs, some bd => memcpyBuf m bd bs bytes.toNat
        | _, _ => m
      (some pd, m)

/-! ### Iterated clone / destroy sequences (for the refcount algebra) -/

/-- `n` successive clones of one identity. -/
def cloneN (m : Mem) (p : PixId) : Nat → Mem
  | 0 => m
  | n + 1 => cloneN (pixClone m (some p)).2 p n

/-- `n` successive destroys of `n` separate slots each holding the same
identity. -/
def destroyN (m : Mem) (p : PixId) : Nat → Mem
  | 0 => m
  | n + 1 => destroyN (pixDestroy m (some (some p))).2 p n

/-! ### Derived record shapes and well-formedness (used by the theorems) -/

/-- The record produced by a successful `pixCreateHeader w h d`. -/
def mkHeaderPix (w h d : Int) : Pix :=
  { w := w, h := h, d := d, wpl := (w * d + 31) / 32, refcount := 1
    xres := 0, yres := 0, informat := IFF_UNKNOWN
    text := none, colormap := none, data := none }

/-- The record produced by a successful `pixCreateNoInit w h d` whose
buffer was allocated at `b`. -/
def mkNoInitPix (w h d : Int) (b : BufId) : Pix :=
  { mkHeaderPix w h d with data := some b }

/-- The record produced by a successful `pixCreateTemplateNoInit` from
a source record `px`, with the fresh buffer at `b`. -/
def mkTemplatePix (px : Pix) (b : BufId) : Pix :=
  { w := px.w, h := px.h, d := px.d, wpl := (px.w * px.d + 31) / 32
    refcount := 1, xres := px.xres, yres := px.yres, informat := px.informat
    text := px.text, colormap := px.colormap, data := some b }

/-- Heap well-formedness: every live address is below its fresh-address
counter and addresses are unique — true of every state a real run can
reach. -/
def wfMem (m : Mem) : Prop :=
  (∀ kv ∈ m.pixes, kv.1 < m.nextPix) ∧ (∀ kv ∈ m.bufs, kv.1 < m.nextBuf) ∧
  (m.pixes.map Prod.fst).Nodup ∧ (m.bufs.map Prod.fst).Nodup

instance (m : Mem) : Decidable (wfMem m) := by
  unfold wfMem
  infer_instance

/-! ### Concrete demonstration states (used by counterexamples and
witnesses) -/

/-- A state holding a 32×1 1-bit pix (id 0, buffer 0, 4 bytes) and a
64×1 1-bit pix (id 1, buffer 1, 8 bytes), with the pixel-buffer
allocator switched to failing — the stage for a resize whose
allocation fails. -/
def resizeFailPre : Mem :=
  { (pixCreate (pixCreate initMem 32 1 1).2 64 1 1).2 with allocFail := true }

/-- `pixResizeImageData` of the 64×1 source into the 32×1 destination
under the failing allocator. -/
def resizeFailRun : Int × Mem := pixResizeImageData resizeFailPre (some 0) (some 1)

/-- A 100×50 1-bit pix (id 0, buffer 0) carrying a text string and a
colormap, so that a final destroy must release all four resources. -/
def cloneDemoMem : Mem :=
  (pixSetColormap
    (pixSetText (pixCreate initMem 100 50 1).2 (some 0) (some "label")).2
    (some 0) (some [7, 8, 9])).2

/-- The pix record held at id 0 of `cloneDemoMem`. -/
def cloneDemoPix : Pix :=
  { w := 100, h := 50, d := 1, wpl := 4, refcount := 1, xres := 0, yres := 0
    informat := 0, text := some "label", colormap := some [7, 8, 9]
    data := some 0 }

/-- Two 3×2 32-bit pixes (ids 0 and 1, buffers 0 and 1, 24 bytes each)
in one state: a source/destination pair of equal geometry. -/
def twoPixMem : Mem := (pixCreate (pixCreate initMem 3 2 32).2 3 2 32).2

/-- The record of each pix of `twoPixMem` (they differ only in the
buffer id: 0 for pix 0, 1 for pix 1). -/
def smallPix (b : BufId) : Pix :=
  { w := 3, h := 2, d := 32, wpl := 3, refcount := 1, xres := 0, yres := 0
    informat := 0, text := none, colormap := none, data := some b }

/-! ## Association-list algebra -/

theorem lookupA_none_of_lt {β : Type} (l : List (Nat × β)) (n : Nat)
    (h : ∀ kv ∈ l, kv.1 < n) : lookupA n l = none := by
  induction l with
  | nil => rfl
  | cons kv rest ih =>
    have h1 : kv.1 < n := h kv (List.mem_cons_self kv rest)
    simp only [lookupA, if_neg (by omega : ¬kv.1 = n)]
    exact ih fun x hx => h x (List.mem_cons_of_mem kv hx)

theorem lookupA_append_left {β : Type} (l1 l2 : List (Nat × β)) (k : Nat)
    (v : β) (h : lookupA k l1 = some v) : lookupA k (l1 ++ l2) = some v := by
  induction l1 with
  | nil => simp [lookupA] at h
  | cons kv rest ih =>
    by_cases hk : kv.1 = k
    · simpa [lookupA, hk] using h
    · simp only [lookupA, if_neg hk] at h
      simpa [lookupA, hk] using ih h

theorem lookupA_append_right {β : Type} (l1 l2 : List (Nat × β)) (k : Nat)
    (h : lookupA k l1 = none) : lookupA k (l1 ++ l2) = lookupA k l2 := by
  induction l1 with
  | nil => rfl
  | cons kv rest ih =>
    by_cases hk : kv.1 = k
    · simp [lookupA, hk] at h
    · simp only [lookupA, if_neg hk] at h
      simpa [lookupA, hk] using ih h

theorem lookupA_snoc_fresh {β : Type} (l : List (Nat × β)) (k : Nat) (v : β)
    (h : lookupA k l = none) : lookupA k (l ++ [(k, v)]) = some v := by
  rw [lookupA_append_right l _ k h]
  simp [lookupA]

theorem setA_snoc_fresh {β : Type} (l : List (Nat × β)) (k : Nat) (v w : β)
    (h : lookupA k l = none) : setA k w (l ++ [(k, v)]) = l ++ [(k, w)] := by
  induction l with
  | nil => simp [setA]
  | cons kv rest ih =>
    by_cases hk : kv.1 = k
    · simp [lookupA, hk] at h
    · simp only [lookupA, if_neg hk] at h
      simp [setA, hk, ih h]

theorem lookupA_setA_self {β : Type} (l : List (Nat × β)) (k : Nat) (v w : β)
    (h : lookupA k l = some v) : lookupA k (setA k w l) = some w := by
  induction l with
  | nil => simp [lookupA] at h
  | cons kv rest ih =>
    by_cases hk : kv.1 = k
    · simp [lookupA, setA, hk]
    · simp only [lookupA, if_neg hk] at h
      simp [lookupA, setA, hk, ih h]

theorem lookupA_setA_ne {β : Type} (l : List (Nat × β)) (k q : Nat) (w : β)
    (h : q ≠ k) : lookupA q (setA k w l) = lookupA q l := by
  induction l with
  | nil => rfl
  | cons kv rest ih =>
    by_cases hk : kv.1 = k
    · rw [setA, if_pos hk, lookupA,
          if_neg (show ¬(k, w).1 = q from fun e => h e.symm), lookupA,
          if_neg (show ¬kv.1 = q from fun e => h (hk.symm.trans e).symm)]
    · by_cases hq : kv.1 = q
      · rw [setA, if_neg hk, lookupA, if_pos hq, lookupA, if_pos hq]
      · rw [setA, if_neg hk, lookupA, if_neg hq, lookupA, if_neg hq, ih]

theorem setA_setA {β : Type} (l : List (Nat × β)) (k : Nat) (v w : β) :
    setA k w (setA k v l) = setA k w l := by
  induction l with
  | nil => rfl
  | cons kv rest ih =>
    by_cases hk : kv.1 = k
    · have hin : setA k v (kv :: rest) = (k, v) :: rest := by rw [setA, if_pos hk]
      have hout : setA k w ((k, v) :: rest) = (k, w) :: rest := by
        rw [setA, if_pos rfl]
      have hrhs : setA k w (kv :: rest) = (k, w) :: rest := by rw [setA, if_pos hk]
      rw [hin, hout, hrhs]
    · have hin : setA k v (kv :: rest) = kv :: setA k v rest := by
        rw [setA, if_neg hk]
      have hout : setA k w (kv :: setA k v rest) = kv :: setA k w (setA k v rest) := by
        rw [setA, if_neg hk]
      have hrhs : setA k w (kv :: rest) = kv :: setA k w rest := by
        rw [setA, if_neg hk]
      rw [hin, hout, hrhs, ih]

theorem setA_id {β : Type} (l : List (Nat × β)) (k : Nat) (v : β)
    (h : lookupA k l = some v) : setA k v l = l := by
  induction l with
  | nil => rfl
  | cons kv rest ih =>
    by_cases hk : kv.1 = k
    · simp only [lookupA, if_pos hk, Option.some.injEq] at h
      have hkv : (k, v) = kv := by rw [← hk, ← h]
      rw [setA, if_pos hk, hkv]
    · simp only [lookupA, if_neg hk] at h
      rw [setA, if_neg hk, ih h]

theorem removeA_setA {β : Type} (l : List (Nat × β)) (k : Nat) (v : β) :
    removeA k (setA k v l) = removeA k l := by
  induction l with
  | nil => rfl
  | cons kv rest ih =>
    by_cases hk : kv.1 = k
    · simp [setA, removeA, hk]
    · simp [setA, removeA, hk, ih]

theorem lookupA_none_of_not_mem {β : Type} (l : List (Nat × β)) (k : Nat)
    (h : k ∉ l.map Prod.fst) : lookupA k l = none := by
  induction l with
  | nil => rfl
  | cons kv rest ih =>
    simp only [List.map_cons, List.mem_cons, not_or] at h
    have h1 : ¬kv.1 = k := fun e => h.1 e.symm
    rw [lookupA, if_neg h1]
    exact ih h.2

theorem lookupA_removeA_self {β : Type} (l : List (Nat × β)) (k : Nat)
    (h : (l.map Prod.fst).Nodup) : lookupA k (removeA k l) = none := by
  induction l with
  | nil => rfl
  | cons kv rest ih =>
    simp only [List.map_cons, List.nodup_cons] at h
    by_cases hk : kv.1 = k
    · subst hk
      simp only [removeA, if_pos rfl]
      exact lookupA_none_of_not_mem rest kv.1 h.1
    · simp only [removeA, if_neg hk, lookupA, if_neg hk]
      exact ih h.2

theorem lookupA_mem {β : Type} (l : List (Nat × β)) (k : Nat) (v : β)
    (h : lookupA k l = some v) : (k, v) ∈ l := by
  induction l with
  | nil => simp [lookupA] at h
  | cons kv rest ih =>
    by_cases hk : kv.1 = k
    · simp only [lookupA, if_pos hk, Option.some.injEq] at h
      have hkv : (k, v) = kv := by rw [← hk, ← h]
      exact hkv ▸ List.mem_cons_self kv rest
    · simp only [lookupA, if_neg hk] at h
      exact List.mem_cons_of_mem kv (ih h)

/-! ## Accessors and setters on a live pix -/

theorem pixGetWidth_live (m : Mem) (p : PixId) (px : Pix)
    (hl : lookupA p m.pixes = some px) : pixGetWidth m (some p) = px.w := by
  simp only [pixGetWidth, hl]

theorem pixGetHeight_live (m : Mem) (p : PixId) (px : Pix)
    (hl : lookupA p m.pixes = some px) : pixGetHeight m (some p) = px.h := by
  simp only [pixGetHeight, hl]

theorem pixGetDepth_live (m : Mem) (p : PixId) (px : Pix)
    (hl : lookupA p m.pixes = some px) : pixGetDepth m (some p) = px.d := by
  simp only [pixGetDepth, hl]

theorem pixGetWpl_live (m : Mem) (p : PixId) (px : Pix)
    (hl : lookupA p m.pixes = some px) : pixGetWpl m (some p) = px.wpl := by
  simp only [pixGetWpl, hl]

theorem pixGetRefcount_live (m : Mem) (p : PixId) (px : Pix)
    (hl : lookupA p m.pixes = some px) : pixGetRefcount m (some p) = px.refcount := by
  simp only [pixGetRefcount, hl]

theorem pixGetXRes_live (m : Mem) (p : PixId) (px : Pix)
    (hl : lookupA p m.pixes = some px) : pixGetXRes m (some p) = px.xres := by
  simp only [pixGetXRes, hl]

theorem pixGetYRes_live (m : Mem) (p : PixId) (px : Pix)
    (hl : lookupA p m.pixes = some px) : pixGetYRes m (some p) = px.yres := by
  simp only [pixGetYRes, hl]

theorem pixGetInputFormat_live (m : Mem) (p : PixId) (px : Pix)
    (hl : lookupA p m.pixes = some px) : pixGetInputFormat m (some p) = px.informat := by
  simp only [pixGetInputFormat, hl]

theorem pixGetText_live (m : Mem) (p : PixId) (px : Pix)
    (hl : lookupA p m.pixes = some px) : pixGetText m (some p) = px.text := by
  simp only [pixGetText, hl]

theorem pixGetColormap_live (m : Mem) (p : PixId) (px : Pix)
    (hl : lookupA p m.pixes = some px) : pixGetColormap m (some p) = px.colormap := by
  simp only [pixGetColormap, hl]

theorem pixGetData_live (m : Mem) (p : PixId) (px : Pix)
    (hl : lookupA p m.pixes = some px) : pixGetData m (some p) = px.data := by
  simp only [pixGetData, hl]

theorem pixGetDimensions_live (m : Mem) (p : PixId) (px : Pix)
    (hl : lookupA p m.pixes = some px) :
    pixGetDimensions m (some p) = (0, px.w, px.h, px.d) := by
  simp only [pixGetDimensions, hl]

theorem pixSetWidth_live (m : Mem) (p : PixId) (px : Pix) (w : Int)
    (hl : lookupA p m.pixes = some px) (hw : ¬w < 0) :
    pixSetWidth m (some p) w = (0, m.setPix p { px with w := w }) := by
  simp only [pixSetWidth, hl, if_neg hw]

theorem pixSetHeight_live (m : Mem) (p : PixId) (px : Pix) (h : Int)
    (hl : lookupA p m.pixes = some px) (hh : ¬h < 0) :
    pixSetHeight m (some p) h = (0, m.setPix p { px with h := h }) := by
  simp only [pixSetHeight, hl, if_neg hh]

theorem pixSetDepth_live (m : Mem) (p : PixId) (px : Pix) (d : Int)
    (hl : lookupA p m.pixes = some px) (hd : ¬d < 1) :
    pixSetDepth m (some p) d = (0, m.setPix p { px with d := d }) := by
  simp only [pixSetDepth, hl, if_neg hd]

theorem pixSetWpl_live (m : Mem) (p : PixId) (px : Pix) (wpl : Int)
    (hl : lookupA p m.pixes = some px) :
    pixSetWpl m (some p) wpl = (0, m.setPix p { px with wpl := wpl }) := by
  simp only [pixSetWpl, hl]

theorem pixChangeRefcount_live (m : Mem) (p : PixId) (px : Pix) (delta : Int)
    (hl : lookupA p m.pixes = some px) :
    pixChangeRefcount m (some p) delta =
      (0, m.setPix p { px with refcount := px.refcount + delta }) := by
  simp only [pixChangeRefcount, hl]

theorem pixSetXRes_live (m : Mem) (p : PixId) (px : Pix) (res : Int)
    (hl : lookupA p m.pixes = some px) :
    pixSetXRes m (some p) res = (0, m.setPix p { px with xres := res }) := by
  simp only [pixSetXRes, hl]

theorem pixSetYRes_live (m : Mem) (p : PixId) (px : Pix) (res : Int)
    (hl : lookupA p m.pixes = some px) :
    pixSetYRes m (some p) res = (0, m.setPix p { px with yres := res }) := by
  simp only [pixSetYRes, hl]

theorem pixSetInputFormat_live (m : Mem) (p : PixId) (px : Pix) (f : Int)
    (hl : lookupA p m.pixes = some px) :
    pixSetInputFormat m (some p) f = (0, m.setPix p { px with informat := f }) := by
  simp only [pixSetInputFormat, hl]

theorem pixSetText_live (m : Mem) (p : PixId) (px : Pix) (t : Option String)
    (hl : lookupA p m.pixes = some px) :
    pixSetText m (some p) t = (0, m.setPix p { px with text := t }) := by
  simp only [pixSetText, hl, stringReplace]

theorem pixSetData_live (m : Mem) (p : PixId) (px : Pix) (b : Option BufId)
    (hl : lookupA p m.pixes = some px) :
    pixSetData m (some p) b = (0, m.setPix p { px with data := b }) := by
  simp only [pixSetData, hl]

theorem pixDestroyColormap_live_none (m : Mem) (p : PixId) (px : Pix)
    (hl : lookupA p m.pixes = some px) (hc : px.colormap = none) :
    pixDestroyColormap m (some p) = (0, m) := by
  simp only [pixDestroyColormap, hl, hc]

theorem pixDestroyColormap_live_some (m : Mem) (p : PixId) (px : Pix) (c : List Int)
    (hl : lookupA p m.pixes = some px) (hc : px.colormap = some c) :
    pixDestroyColormap m (some p) =
      (0, (m.logE (Event.freeCmap p)).setPix p { px with colormap := none }) := by
  simp only [pixDestroyColormap, hl, hc]

/-! ## Mem.setPix algebra -/

theorem lookupA_setPix_self (m : Mem) (p : PixId) (px px' : Pix)
    (hl : lookupA p m.pixes = some px) :
    lookupA p (m.setPix p px').pixes = some px' :=
  lookupA_setA_self m.pixes p px px' hl

theorem lookupA_setPix_ne (m : Mem) (p q : PixId) (px' : Pix) (h : q ≠ p) :
    lookupA q (m.setPix p px').pixes = lookupA q m.pixes :=
  lookupA_setA_ne m.pixes p q px' h

theorem setPix_setPix (m : Mem) (p : PixId) (px1 px2 : Pix) :
    (m.setPix p px1).setPix p px2 = m.setPix p px2 := by
  unfold Mem.setPix
  simp only [setA_setA]

theorem setPix_id (m : Mem) (p : PixId) (px : Pix)
    (hl : lookupA p m.pixes = some px) : m.setPix p px = m := by
  unfold Mem.setPix
  rw [setA_id m.pixes p px hl]

/-! ## Symbolic execution of the constructors -/

theorem lookupA_snoc_fresh' {β : Type} {l : List (Nat × β)} {k : Nat}
    (h : lookupA k l = none) (v : β) : lookupA k (l ++ [(k, v)]) = some v :=
  lookupA_snoc_fresh l k v h

theorem setA_snoc_fresh' {β : Type} {l : List (Nat × β)} {k : Nat}
    (h : lookupA k l = none) (v w : β) : setA k w (l ++ [(k, v)]) = l ++ [(k, w)] :=
  setA_snoc_fresh l k v w h

theorem depth_ge_one {d : Int}
    (hd : d = 1 ∨ d = 2 ∨ d = 4 ∨ d = 8 ∨ d = 16 ∨ d = 24 ∨ d = 32) :
    ¬d < 1 := by
  rcases hd with h | h | h | h | h | h | h <;> omega

theorem pixCreateHeader_eq (m : Mem) (w h d : Int)
    (hd : d = 1 ∨ d = 2 ∨ d = 4 ∨ d = 8 ∨ d = 16 ∨ d = 24 ∨ d = 32)
    (hw : 0 < w) (hh : 0 < h)
    (hfresh : lookupA m.nextPix m.pixes = none) :
    pixCreateHeader m w h d =
      (some m.nextPix,
       { m with pixes := m.pixes ++ [(m.nextPix, mkHeaderPix w h d)]
                nextPix := m.nextPix + 1 }) := by
  unfold pixCreateHeader
  rw [if_neg (not_not_intro hd), if_neg (show ¬w ≤ 0 by omega),
      if_neg (show ¬h ≤ 0 by omega)]
  simp only [pixSetWidth, pixSetHeight, pixSetDepth, pixSetWpl, Mem.setPix,
    lookupA_snoc_fresh' hfresh, setA_snoc_fresh' hfresh,
    if_neg (show ¬w < 0 by omega), if_neg (show ¬h < 0 by omega),
    if_neg (depth_ge_one hd), mkHeaderPix, zeroPix]

theorem pixCreateNoInit_eq (m : Mem) (w h d : Int)
    (hd : d = 1 ∨ d = 2 ∨ d = 4 ∨ d = 8 ∨ d = 16 ∨ d = 24 ∨ d = 32)
    (hw : 0 < w) (hh : 0 < h)
    (hfresh : lookupA m.nextPix m.pixes = none)
    (haf : m.allocFail = false) :
    pixCreateNoInit m w h d =
      (some m.nextPix,
       { m with pixes := m.pixes ++ [(m.nextPix, mkNoInitPix w h d m.nextBuf)]
                bufs := m.bufs ++
                  [(m.nextBuf, List.replicate (4 * ((w * d + 31) / 32) * h).toNat 0)]
                nextPix := m.nextPix + 1
                nextBuf := m.nextBuf + 1 }) := by
  unfold pixCreateNoInit
  rw [pixCreateHeader_eq m w h d hd hw hh hfresh]
  simp only [pixGetWpl, pix_malloc, pixSetData, pixSetPadBits, Mem.setPix,
    lookupA_snoc_fresh' hfresh, setA_snoc_fresh' hfresh, haf,
    Bool.false_eq_true, if_false, mkNoInitPix, mkHeaderPix]

theorem pixCreate_eq (m : Mem) (w h d : Int)
    (hd : d = 1 ∨ d = 2 ∨ d = 4 ∨ d = 8 ∨ d = 16 ∨ d = 24 ∨ d = 32)
    (hw : 0 < w) (hh : 0 < h)
    (hfresh : lookupA m.nextPix m.pixes = none)
    (hfreshb : lookupA m.nextBuf m.bufs = none)
    (haf : m.allocFail = false) :
    pixCreate m w h d =
      (some m.nextPix,
       { m with pixes := m.pixes ++ [(m.nextPix, mkNoInitPix w h d m.nextBuf)]
                bufs := m.bufs ++
                  [(m.nextBuf, List.replicate (4 * ((w * d + 31) / 32) * h).toNat 0)]
                nextPix := m.nextPix + 1
                nextBuf := m.nextBuf + 1 }) := by
  unfold pixCreate
  rw [pixCreateNoInit_eq m w h d hd hw hh hfresh haf]
  simp only [pixGetData, pixGetWpl, pixGetHeight, memsetBuf,
    lookupA_snoc_fresh' hfresh, lookupA_snoc_fresh' hfreshb,
    setA_snoc_fresh' hfreshb, mkNoInitPix, mkHeaderPix,
    List.drop_replicate, Nat.sub_self, List.replicate_zero, List.append_nil]

/-! ## Clone and destroy -/

theorem pixClone_live (m : Mem) (p : PixId) (px : Pix)
    (hl : lookupA p m.pixes = some px) :
    pixClone m (some p) =
      (some p, m.setPix p { px with refcount := px.refcount + 1 }) := by
  simp only [pixClone]
  rw [pixChangeRefcount_live m p px 1 hl]

theorem pixDestroy_survive (m : Mem) (p : PixId) (px : Pix)
    (hl : lookupA p m.pixes = some px) (h2 : 2 ≤ px.refcount) :
    pixDestroy m (some (some p)) =
      (some none, m.setPix p { px with refcount := px.refcount - 1 }) := by
  simp only [pixDestroy, pixFree]
  rw [pixChangeRefcount_live m p px (-1) hl]
  have hl1 : lookupA p (m.setPix p { px with refcount := px.refcount + (-1) }).pixes
      = some { px with refcount := px.refcount + (-1) } :=
    lookupA_setPix_self m p px _ hl
  rw [pixGetRefcount_live _ p _ hl1]
  rw [if_neg (show ¬({ px with refcount := px.refcount + (-1) } : Pix).refcount ≤ 0 by
    simp only []
    omega)]
  have harith : px.refcount + (-1) = px.refcount - 1 := by ring
  rw [harith]

theorem pixDestroy_last (m : Mem) (p : PixId) (px : Pix) (b : BufId)
    (t : String) (cm : List Int)
    (hl : lookupA p m.pixes = some px) (h1 : px.refcount = 1)
    (hb : px.data = some b) (ht : px.text = some t) (hc : px.colormap = some cm) :
    pixDestroy m (some (some p)) =
      (some none,
       { m with pixes := removeA p m.pixes
                bufs := removeA b m.bufs
                events := m.events ++ [Event.freeBuf b, Event.freeText p,
                                       Event.freeCmap p, Event.freePix p] }) := by
  simp only [pixDestroy, pixFree]
  rw [pixChangeRefcount_live m p px (-1) hl]
  simp only [pixGetRefcount, pixGetData, pixGetText, pixDestroyColormap,
    pixfreeBuf, Mem.setPix, Mem.logE, Mem.warnE,
    lookupA_setA_self m.pixes p px, hl, hb, ht, hc, h1, setA_setA, removeA_setA]
  norm_num

theorem cloneN_eq (m : Mem) (p : PixId) (px : Pix) (n : Nat)
    (hl : lookupA p m.pixes = some px) :
    cloneN m p n = m.setPix p { px with refcount := px.refcount + n } := by
  induction n generalizing m px with
  | zero =>
    simp only [cloneN, Nat.cast_zero, add_zero]
    exact (setPix_id m p px hl).symm
  | succ n ih =>
    simp only [cloneN]
    rw [pixClone_live m p px hl]
    have hl1 : lookupA p (m.setPix p { px with refcount := px.refcount + 1 }).pixes
        = some { px with refcount := px.refcount + 1 } :=
      lookupA_setPix_self m p px _ hl
    rw [ih _ _ hl1, setPix_setPix]
    have harith : ({ px with refcount := px.refcount + 1 } : Pix).refcount + (n : Int)
        = px.refcount + ((n : Nat) + 1 : Nat) := by
      push_cast
      ring
    rw [show ({ px with refcount := px.refcount + 1 } : Pix).refcount + (n : Int)
          = px.refcount + (((n : Nat) + 1 : Nat) : Int) from harith]

theorem destroyN_eq (m : Mem) (p : PixId) (px : Pix) (n : Nat)
    (hl : lookupA p m.pixes = some px) (hge : (n : Int) + 1 ≤ px.refcount) :
    destroyN m p n = m.setPix p { px with refcount := px.refcount - n } := by
  induction n generalizing m px with
  | zero =>
    simp only [destroyN, Nat.cast_zero, sub_zero]
    exact (setPix_id m p px hl).symm
  | succ n ih =>
    simp only [destroyN]
    rw [pixDestroy_survive m p px hl (by push_cast at hge; omega)]
    have hl1 : lookupA p (m.setPix p { px with refcount := px.refcount - 1 }).pixes
        = some { px with refcount := px.refcount - 1 } :=
      lookupA_setPix_self m p px _ hl
    rw [ih _ _ hl1 (by push_cast at hge ⊢; omega), setPix_setPix]
    have harith : ({ px with refcount := px.refcount - 1 } : Pix).refcount - (n : Int)
        = px.refcount - (((n : Nat) + 1 : Nat) : Int) := by
      push_cast
      ring
    rw [harith]

/-! ## Symbolic execution of template construction and fresh copy -/

theorem pixCreateTemplateNoInit_eq (m : Mem) (ps : PixId) (px : Pix)
    (hl : lookupA ps m.pixes = some px)
    (hd : px.d = 1 ∨ px.d = 2 ∨ px.d = 4 ∨ px.d = 8 ∨ px.d = 16 ∨ px.d = 24 ∨
          px.d = 32)
    (hw : 0 < px.w) (hh : 0 < px.h)
    (hfresh : lookupA m.nextPix m.pixes = none)
    (haf : m.allocFail = false) :
    pixCreateTemplateNoInit m (some ps) =
      (some m.nextPix,
       { m with pixes := m.pixes ++ [(m.nextPix, mkTemplatePix px m.nextBuf)]
                bufs := m.bufs ++
                  [(m.nextBuf,
                    List.replicate (4 * ((px.w * px.d + 31) / 32) * px.h).toNat 0)]
                nextPix := m.nextPix + 1
                nextBuf := m.nextBuf + 1 }) := by
  have hps : ∀ v : Pix, lookupA ps (m.pixes ++ [(m.nextPix, v)]) = some px :=
    fun v => lookupA_append_left _ _ _ _ hl
  simp only [pixCreateTemplateNoInit]
  rw [if_neg (show ¬(some ps = none) from fun e => Option.noConfusion e)]
  rw [pixGetDimensions_live m ps px hl]
  dsimp only
  rw [pixCreateNoInit_eq m px.w px.h px.d hd hw hh hfresh haf]
  rcases hcm : px.colormap with _ | c <;>
    simp [pixCopyResolution, pixCopyColormap, pixCopyText, pixCopyInputFormat,
      pixGetXRes, pixGetYRes, pixGetColormap, pixGetText, pixGetInputFormat,
      pixSetXRes, pixSetYRes, pixSetColormap, pixSetText, pixSetInputFormat,
      pixDestroyColormap, pixcmapCopy, stringReplace, Mem.setPix, Mem.logE,
      lookupA_snoc_fresh' hfresh, setA_snoc_fresh' hfresh, hps, hcm,
      mkNoInitPix, mkHeaderPix, mkTemplatePix]

theorem pixCreateTemplate_eq (m : Mem) (ps : PixId) (px : Pix)
    (hl : lookupA ps m.pixes = some px)
    (hd : px.d = 1 ∨ px.d = 2 ∨ px.d = 4 ∨ px.d = 8 ∨ px.d = 16 ∨ px.d = 24 ∨
          px.d = 32)
    (hw : 0 < px.w) (hh : 0 < px.h)
    (hfresh : lookupA m.nextPix m.pixes = none)
    (hfreshb : lookupA m.nextBuf m.bufs = none)
    (haf : m.allocFail = false) :
    pixCreateTemplate m (some ps) =
      (some m.nextPix,
       { m with pixes := m.pixes ++ [(m.nextPix, mkTemplatePix px m.nextBuf)]
                bufs := m.bufs ++
                  [(m.nextBuf,
                    List.replicate (4 * ((px.w * px.d + 31) / 32) * px.h).toNat 0)]
                nextPix := m.nextPix + 1
                nextBuf := m.nextBuf + 1 }) := by
  simp only [pixCreateTemplate]
  rw [if_neg (show ¬(some ps = none) from fun e => Option.noConfusion e)]
  rw [pixCreateTemplateNoInit_eq m ps px hl hd hw hh hfresh haf]
  simp only [pixGetData, pixGetWpl, pixGetHeight, memsetBuf,
    lookupA_snoc_fresh' hfresh, lookupA_snoc_fresh' hfreshb,
    setA_snoc_fresh' hfreshb, mkTemplatePix,
    List.drop_replicate, Nat.sub_self, List.replicate_zero, List.append_nil]

theorem pixCopy_none_eq (m : Mem) (ps : PixId) (px : Pix) (bs : BufId)
    (s : List Nat)
    (hl : lookupA ps m.pixes = some px)
    (hd : px.d = 1 ∨ px.d = 2 ∨ px.d = 4 ∨ px.d = 8 ∨ px.d = 16 ∨ px.d = 24 ∨
          px.d = 32)
    (hw : 0 < px.w) (hh : 0 < px.h)
    (hfresh : lookupA m.nextPix m.pixes = none)
    (hfreshb : lookupA m.nextBuf m.bufs = none)
    (haf : m.allocFail = false)
    (hbs : px.data = some bs)
    (hs : lookupA bs m.bufs = some s)
    (hwpl : px.wpl = (px.w * px.d + 31) / 32)
    (hlen : s.length = (4 * px.wpl * px.h).toNat) :
    pixCopy m none (some ps) =
      (some m.nextPix,
       { m with pixes := m.pixes ++ [(m.nextPix, mkTemplatePix px m.nextBuf)]
                bufs := m.bufs ++ [(m.nextBuf, s)]
                nextPix := m.nextPix + 1
                nextBuf := m.nextBuf + 1 }) := by
  have hps : ∀ v : Pix, lookupA ps (m.pixes ++ [(m.nextPix, v)]) = some px :=
    fun v => lookupA_append_left _ _ _ _ hl
  have hbs2 : ∀ v : List Nat, lookupA bs (m.bufs ++ [(m.nextBuf, v)]) = some s :=
    fun v => lookupA_append_left _ _ _ _ hs
  simp only [pixCopy]
  rw [if_neg (show ¬(some ps = none) from fun e => Option.noConfusion e),
      if_neg (show ¬((some ps : Option PixId) = none) from fun e =>
        Option.noConfusion e)]
  rw [pixGetWpl_live m ps px hl, pixGetHeight_live m ps px hl]
  rw [pixCreateTemplate_eq m ps px hl hd hw hh hfresh hfreshb haf]
  simp only [pixGetData, lookupA_snoc_fresh' hfresh, lookupA_snoc_fresh' hfreshb,
    hps, hbs, hbs2, mkTemplatePix, memcpyBuf, setA_snoc_fresh' hfreshb]
  rw [show (4 * px.wpl * px.h).toNat = s.length from hlen.symm]
  simp only [List.take_length, ← hwpl, List.drop_replicate]
  rw [show List.replicate ((4 * px.wpl * px.h).toNat - s.length) (0 : Nat)
        = [] by rw [hlen, Nat.sub_self]; rfl]
  simp only [List.append_nil]

/-! ## Well-formedness helpers -/

theorem wf_fresh_pix (m : Mem) (h : wfMem m) : lookupA m.nextPix m.pixes = none :=
  lookupA_none_of_lt m.pixes m.nextPix h.1

theorem wf_fresh_buf (m : Mem) (h : wfMem m) : lookupA m.nextBuf m.bufs = none :=
  lookupA_none_of_lt m.bufs m.nextBuf h.2.1

theorem lookupA_map_wpl_setPix (m : Mem) (p : PixId) (px px' : Pix) (q : PixId)
    (hl : lookupA p m.pixes = some px) (hwpl : px'.wpl = px.wpl) :
    (lookupA q (m.setPix p px').pixes).map Pix.wpl
      = (lookupA q m.pixes).map Pix.wpl := by
  by_cases hq : q = p
  · subst hq
    rw [lookupA_setPix_self m q px px' hl, hl]
    simp [hwpl]
  · rw [lookupA_setPix_ne m p q px' hq]

/-! ## Claim theorems -/

/-- C4: whenever `destroy` is applied to a reference slot holding an
identity reference, after the call the slot holds no reference — in
every state, hence regardless of whether the decremented refcount
reached zero (identity freed) or the identity survived because of
other outstanding clones. -/
theorem destroy_nulls_slot (m : Mem) (p : PixId) :
    (pixDestroy m (some (some p))).1 = some none := rfl

/-- C5 counterexample: `destroy` on a reference slot that holds no
reference emits no diagnostic at all — the event log stays empty and
the state is untouched — refuting the claim that the `NullHandle`
condition is reported in this case. -/
theorem destroy_empty_slot_cex :
    pixDestroy initMem (some none) = (some none, initMem) ∧
    (pixDestroy initMem (some none)).2.events = [] :=
  ⟨rfl, rfl⟩

/-- C5 (amended): `destroy` applied to a reference slot that holds no
reference returns with no effect at all (a safe, silent no-op); the
`NullHandle` report is emitted only when no slot is supplied at all
(a null slot address), which is also a no-op on the heap. -/
theorem destroy_empty_slot_amended (m : Mem) :
    pixDestroy m (some none) = (some none, m) ∧
    pixDestroy m none = (none, m.warnE "ptr address is null!") :=
  ⟨rfl, rfl⟩

/-- C8: `copy(dest, src)` where dest and src are the same identity is
a no-op returning that identity and leaving the entire state — buffer
identity, refcount, pixel content and metadata — unchanged. -/
theorem copy_same_identity_noop (m : Mem) (p : PixId) :
    pixCopy m (some p) (some p) = (some p, m) := by
  simp only [pixCopy]
  rw [if_neg (show ¬(some p = none) from fun e => Option.noConfusion e)]
  simp

/-- C3 counterexample: on a 64×1 1-bit pix (wpl = 2), setting width to
1 and depth to 8 through the setters leaves wpl = 2, whereas
`ceil(width*depth/32) = 1`: the setters do not recompute wpl. -/
theorem setters_wpl_stale_cex :
    (lookupA 0 ((pixSetDepth
        ((pixSetWidth (pixCreate initMem 64 1 1).2 (some 0) 1).2)
        (some 0) 8).2).pixes).map Pix.wpl = some 2 ∧
    (lookupA 0 ((pixSetDepth
        ((pixSetWidth (pixCreate initMem 64 1 1).2 (some 0) 1).2)
        (some 0) 8).2).pixes).map (fun px => (px.w * px.d + 31) / 32) = some 1 ∧
    ¬((lookupA 0 ((pixSetDepth
        ((pixSetWidth (pixCreate initMem 64 1 1).2 (some 0) 1).2)
        (some 0) 8).2).pixes).map Pix.wpl
      = (lookupA 0 ((pixSetDepth
        ((pixSetWidth (pixCreate initMem 64 1 1).2 (some 0) 1).2)
        (some 0) 8).2).pixes).map (fun px => (px.w * px.d + 31) / 32)) := by
  refine ⟨rfl, rfl, ?_⟩
  decide

/-- C3 (amended): wpl equals `ceil(width*depth/32)` when an identity is
constructed (and resize-on-copy recomputes it), but the width and depth
setters do not recompute wpl: they leave the stored wpl of every live
pix unchanged. -/
theorem setters_preserve_wpl (m : Mem) (pix : Option PixId) (v : Int) (q : PixId) :
    (lookupA q ((pixSetWidth m pix v).2).pixes).map Pix.wpl
      = (lookupA q m.pixes).map Pix.wpl ∧
    (lookupA q ((pixSetDepth m pix v).2).pixes).map Pix.wpl
      = (lookupA q m.pixes).map Pix.wpl := by
  constructor
  · match pix with
    | none => rfl
    | some p =>
      match hl : lookupA p m.pixes with
      | none => simp only [pixSetWidth, hl]
      | some px =>
        simp only [pixSetWidth, hl]
        by_cases hv : v < 0
        · rw [if_pos hv]
          exact lookupA_map_wpl_setPix m p px _ q hl rfl
        · rw [if_neg hv]
          exact lookupA_map_wpl_setPix m p px _ q hl rfl
  · match pix with
    | none => rfl
    | some p =>
      match hl : lookupA p m.pixes with
      | none => simp only [pixSetDepth, hl]
      | some px =>
        simp only [pixSetDepth, hl]
        by_cases hv : v < 1
        · rw [if_pos hv]
          rfl
        · rw [if_neg hv]
          exact lookupA_map_wpl_setPix m p px _ q hl rfl

/-- C1 (code bug demonstration): resizing a 32×1 destination towards a
64×1 source under a failing allocator returns the error status 1, but
by then the destination's width/height/depth/wpl have already been
overwritten with the source's (width 64, wpl 2 instead of the prior 32
and 1) and its prior buffer (id 0, previously 4 live bytes) has
already been freed, its `data` field still pointing at the dead
buffer: the prior state is not preserved. -/
theorem resize_allocfail_corrupts :
    resizeFailRun.1 = 1 ∧
    pixGetWidth resizeFailPre (some 0) = 32 ∧
    pixGetWpl resizeFailPre (some 0) = 1 ∧
    (lookupA 0 resizeFailPre.bufs).map List.length = some 4 ∧
    pixGetWidth resizeFailRun.2 (some 0) = 64 ∧
    pixGetWpl resizeFailRun.2 (some 0) = 2 ∧
    pixGetData resizeFailRun.2 (some 0) = some 0 ∧
    lookupA 0 resizeFailRun.2.bufs = none := by
  refine ⟨rfl, rfl, rfl, rfl, rfl, rfl, rfl, rfl⟩

/-- C2: for every width > 0, height > 0 and depth in the allowed set,
in any well-formed state with a working allocator, `create` and
`createNoInit` construct the same identity whose wpl is exactly
`ceil(width*depth/32)` (characterized by `32*(wpl-1) < w*d ≤ 32*wpl`
together with the closed form) and whose allocated buffer has byte
length exactly `4*wpl*height`. -/
theorem create_wpl_buflen (m : Mem) (w h d : Int)
    (hwf : wfMem m) (haf : m.allocFail = false)
    (hw : 0 < w) (hh : 0 < h)
    (hd : d = 1 ∨ d = 2 ∨ d = 4 ∨ d = 8 ∨ d = 16 ∨ d = 24 ∨ d = 32) :
    ∃ p px b content,
      (pixCreate m w h d).1 = some p ∧
      (pixCreateNoInit m w h d).1 = some p ∧
      lookupA p (pixCreate m w h d).2.pixes = some px ∧
      lookupA p (pixCreateNoInit m w h d).2.pixes = some px ∧
      px.w = w ∧ px.h = h ∧ px.d = d ∧
      px.wpl = (w * d + 31) / 32 ∧
      32 * (px.wpl - 1) < w * d ∧ w * d ≤ 32 * px.wpl ∧
      px.data = some b ∧
      lookupA b (pixCreate m w h d).2.bufs = some content ∧
      lookupA b (pixCreateNoInit m w h d).2.bufs = some content ∧
      (content.length : Int) = 4 * px.wpl * h := by
  have hfresh := wf_fresh_pix m hwf
  have hfreshb := wf_fresh_buf m hwf
  have hwd : 0 < w * d := mul_pos hw (by rcases hd with e | e | e | e | e | e | e <;> omega)
  have hq : 0 < (w * d + 31) / 32 := by omega
  refine ⟨m.nextPix, mkNoInitPix w h d m.nextBuf, m.nextBuf,
    List.replicate (4 * ((w * d + 31) / 32) * h).toNat 0, ?_⟩
  rw [pixCreate_eq m w h d hd hw hh hfresh hfreshb haf,
      pixCreateNoInit_eq m w h d hd hw hh hfresh haf]
  refine ⟨rfl, rfl, lookupA_snoc_fresh' hfresh _, lookupA_snoc_fresh' hfresh _,
    rfl, rfl, rfl, rfl, by simp only [mkNoInitPix, mkHeaderPix]; omega,
    by simp only [mkNoInitPix, mkHeaderPix]; omega, rfl,
    lookupA_snoc_fresh' hfreshb _, lookupA_snoc_fresh' hfreshb _, ?_⟩
  have hpos : 0 ≤ 4 * ((w * d + 31) / 32) * h :=
    le_of_lt (mul_pos (by omega) hh)
  simp only [List.length_replicate, mkNoInitPix, mkHeaderPix]
  rw [Int.toNat_of_nonneg hpos]

/-- C2 witness: the general theorem applied to the empty state with
width 100, height 50, depth 1 (the spec's own scenario: wpl = 4,
buffer = 800 bytes). -/
theorem create_wpl_buflen_witness :
    wfMem initMem ∧ initMem.allocFail = false ∧ (0 : Int) < 100 ∧ (0 : Int) < 50 ∧
    (∃ p px b content,
      (pixCreate initMem 100 50 1).1 = some p ∧
      (pixCreateNoInit initMem 100 50 1).1 = some p ∧
      lookupA p (pixCreate initMem 100 50 1).2.pixes = some px ∧
      lookupA p (pixCreateNoInit initMem 100 50 1).2.pixes = some px ∧
      px.w = 100 ∧ px.h = 50 ∧ px.d = 1 ∧
      px.wpl = (100 * 1 + 31) / 32 ∧
      32 * (px.wpl - 1) < 100 * 1 ∧ 100 * 1 ≤ 32 * px.wpl ∧
      px.data = some b ∧
      lookupA b (pixCreate initMem 100 50 1).2.bufs = some content ∧
      lookupA b (pixCreateNoInit initMem 100 50 1).2.bufs = some content ∧
      (content.length : Int) = 4 * px.wpl * 50) :=
  ⟨by decide, rfl, by decide, by decide,
   create_wpl_buflen initMem 100 50 1 (by decide) rfl (by decide) (by decide)
     (Or.inl rfl)⟩

/-- C7: `createHeader(width, height, depth)` rejects any depth outside
the allowed set and any non-positive width or height, reporting a
diagnostic and producing no identity; on success it sets refcount = 1,
inputFormat = unknown, and leaves the buffer absent. -/
theorem createHeader_validates (m : Mem) (w h d : Int) (hwf : wfMem m) :
    ((¬(d = 1 ∨ d = 2 ∨ d = 4 ∨ d = 8 ∨ d = 16 ∨ d = 24 ∨ d = 32) ∨
       w ≤ 0 ∨ h ≤ 0) →
      (pixCreateHeader m w h d).1 = none ∧
      (pixCreateHeader m w h d).2.pixes = m.pixes ∧
      ∃ msg, (pixCreateHeader m w h d).2.events = m.events ++ [Event.warn msg]) ∧
    ((d = 1 ∨ d = 2 ∨ d = 4 ∨ d = 8 ∨ d = 16 ∨ d = 24 ∨ d = 32) → 0 < w →
     0 < h →
      (pixCreateHeader m w h d).1 = some m.nextPix ∧
      ∃ px, lookupA m.nextPix (pixCreateHeader m w h d).2.pixes = some px ∧
        px.refcount = 1 ∧ px.informat = IFF_UNKNOWN ∧ px.data = none) := by
  constructor
  · intro hbad
    unfold pixCreateHeader
    by_cases hdv : d = 1 ∨ d = 2 ∨ d = 4 ∨ d = 8 ∨ d = 16 ∨ d = 24 ∨ d = 32
    · rw [if_neg (not_not_intro hdv)]
      by_cases hwv : w ≤ 0
      · rw [if_pos hwv]
        exact ⟨rfl, rfl, "width must be > 0", rfl⟩
      · have hhv : h ≤ 0 := by
          rcases hbad with hbad | hbad | hbad
          · exact absurd hdv hbad
          · exact absurd hbad hwv
          · exact hbad
        rw [if_neg hwv, if_pos hhv]
        exact ⟨rfl, rfl, "height must be > 0", rfl⟩
    · rw [if_pos hdv]
      exact ⟨rfl, rfl, "depth must be \x7b1, 2, 4, 8, 16, 24, 32\x7d", rfl⟩
  · intro hd hw hh
    rw [pixCreateHeader_eq m w h d hd hw hh (wf_fresh_pix m hwf)]
    exact ⟨rfl, mkHeaderPix w h d,
      lookupA_snoc_fresh' (wf_fresh_pix m hwf) _, rfl, rfl, rfl⟩

/-- C7 witness: in the empty state, width 0 is rejected with a report
and no identity, while 100×50×1 succeeds with refcount 1, unknown
input format, and no buffer. -/
theorem createHeader_validates_witness :
    wfMem initMem ∧
    ((pixCreateHeader initMem 0 50 1).1 = none ∧
     (pixCreateHeader initMem 0 50 1).2.pixes = initMem.pixes ∧
     ∃ msg, (pixCreateHeader initMem 0 50 1).2.events
       = initMem.events ++ [Event.warn msg]) ∧
    ((pixCreateHeader initMem 100 50 1).1 = some initMem.nextPix ∧
     ∃ px, lookupA initMem.nextPix (pixCreateHeader initMem 100 50 1).2.pixes
         = some px ∧
       px.refcount = 1 ∧ px.informat = IFF_UNKNOWN ∧ px.data = none) :=
  ⟨by decide,
   (createHeader_validates initMem 0 50 1 (by decide)).1
     (Or.inr (Or.inl (by decide))),
   (createHeader_validates initMem 100 50 1 (by decide)).2
     (Or.inl rfl) (by decide) (by decide)⟩

/-- C6: from any well-formed state holding an identity with refcount 1
(with a buffer, a text string, and a colormap), N clones followed by N
destroys restore the state exactly — one reference alive with refcount
1, unchanged buffer identity and content; one further destroy releases
buffer, text, colormap and header exactly once (the four release
events are appended once each and the header and buffer leave the
heap); destroying the resulting empty slot again is a no-op. -/
theorem clone_destroy_balance (m : Mem) (p : PixId) (px : Pix) (b : BufId)
    (t : String) (cm : List Int) (N : Nat)
    (hwf : wfMem m)
    (hl : lookupA p m.pixes = some px) (h1 : px.refcount = 1)
    (hb : px.data = some b) (ht : px.text = some t) (hc : px.colormap = some cm) :
    destroyN (cloneN m p N) p N = m ∧
    (pixDestroy m (some (some p))).1 = some none ∧
    lookupA p (pixDestroy m (some (some p))).2.pixes = none ∧
    lookupA b (pixDestroy m (some (some p))).2.bufs = none ∧
    (pixDestroy m (some (some p))).2.events
      = m.events ++ [Event.freeBuf b, Event.freeText p,
                     Event.freeCmap p, Event.freePix p] ∧
    pixDestroy (pixDestroy m (some (some p))).2 (some none)
      = (some none, (pixDestroy m (some (some p))).2) := by
  refine ⟨?_, ?_, ?_, ?_, ?_, rfl⟩
  · rw [cloneN_eq m p px N hl]
    have hl1 : lookupA p (m.setPix p { px with refcount := px.refcount + N }).pixes
        = some { px with refcount := px.refcount + N } :=
      lookupA_setPix_self m p px _ hl
    rw [destroyN_eq _ p _ N hl1 (by simp only []; omega), setPix_setPix]
    have harith : ({ px with refcount := px.refcount + N } : Pix).refcount - (N : Int)
        = px.refcount := by
      simp only []
      ring
    rw [harith]
    exact setPix_id m p px hl
  · rfl
  · rw [pixDestroy_last m p px b t cm hl h1 hb ht hc]
    exact lookupA_removeA_self m.pixes p hwf.2.2.1
  · rw [pixDestroy_last m p px b t cm hl h1 hb ht hc]
    exact lookupA_removeA_self m.bufs b hwf.2.2.2
  · rw [pixDestroy_last m p px b t cm hl h1 hb ht hc]

/-- C6 witness: the balance theorem applied with N = 3 to a concrete
100×50 1-bit pix carrying a text string and a colormap. -/
theorem clone_destroy_balance_witness :
    wfMem cloneDemoMem ∧
    lookupA 0 cloneDemoMem.pixes = some cloneDemoPix ∧
    cloneDemoPix.refcount = 1 ∧ cloneDemoPix.data = some 0 ∧
    cloneDemoPix.text = some "label" ∧ cloneDemoPix.colormap = some [7, 8, 9] ∧
    (destroyN (cloneN cloneDemoMem 0 3) 0 3 = cloneDemoMem ∧
     (pixDestroy cloneDemoMem (some (some 0))).1 = some none ∧
     lookupA 0 (pixDestroy cloneDemoMem (some (some 0))).2.pixes = none ∧
     lookupA 0 (pixDestroy cloneDemoMem (some (some 0))).2.bufs = none ∧
     (pixDestroy cloneDemoMem (some (some 0))).2.events
       = cloneDemoMem.events ++ [Event.freeBuf 0, Event.freeText 0,
                                 Event.freeCmap 0, Event.freePix 0] ∧
     pixDestroy (pixDestroy cloneDemoMem (some (some 0))).2 (some none)
       = (some none, (pixDestroy cloneDemoMem (some (some 0))).2)) :=
  ⟨by decide, by decide, rfl, rfl, rfl, rfl,
   clone_destroy_balance cloneDemoMem 0 cloneDemoPix 0 "label" [7, 8, 9] 3
     (by decide) (by decide) rfl rfl rfl rfl⟩

/-- C9: `copy(none, src)`, for every valid live source identity in a
well-formed state with a working allocator, produces a new identity
(distinct from the source) with refcount 1, with a buffer distinct
from the source's, whose content is byte-equal to the source's content
at copy time; and because the two buffers are distinct cells, storing
new bytes into either buffer afterwards leaves the other buffer's
content untouched. -/
theorem copy_fresh_independent (m : Mem) (ps : PixId) (px : Pix) (bs : BufId)
    (s : List Nat)
    (hwf : wfMem m) (haf : m.allocFail = false)
    (hl : lookupA ps m.pixes = some px)
    (hd : px.d = 1 ∨ px.d = 2 ∨ px.d = 4 ∨ px.d = 8 ∨ px.d = 16 ∨ px.d = 24 ∨
          px.d = 32)
    (hw : 0 < px.w) (hh : 0 < px.h)
    (hbs : px.data = some bs)
    (hs : lookupA bs m.bufs = some s)
    (hwpl : px.wpl = (px.w * px.d + 31) / 32)
    (hlen : s.length = (4 * px.wpl * px.h).toNat) :
    ∃ pd px',
      (pixCopy m none (some ps)).1 = some pd ∧
      pd ≠ ps ∧
      lookupA pd (pixCopy m none (some ps)).2.pixes = some px' ∧
      px'.refcount = 1 ∧
      px'.data = some m.nextBuf ∧
      m.nextBuf ≠ bs ∧
      lookupA m.nextBuf (pixCopy m none (some ps)).2.bufs = some s ∧
      lookupA bs (pixCopy m none (some ps)).2.bufs = some s ∧
      (∀ c : List Nat,
        lookupA bs (setA m.nextBuf c (pixCopy m none (some ps)).2.bufs) = some s ∧
        lookupA m.nextBuf (setA bs c (pixCopy m none (some ps)).2.bufs) = some s) := by
  have hfresh := wf_fresh_pix m hwf
  have hfreshb := wf_fresh_buf m hwf
  have hneqp : m.nextPix ≠ ps := by
    intro e
    rw [← e, hfresh] at hl
    exact Option.noConfusion hl
  have hneqb : m.nextBuf ≠ bs := by
    intro e
    rw [← e, hfreshb] at hs
    exact Option.noConfusion hs
  rw [pixCopy_none_eq m ps px bs s hl hd hw hh hfresh hfreshb haf hbs hs hwpl hlen]
  refine ⟨m.nextPix, mkTemplatePix px m.nextBuf, rfl, hneqp,
    lookupA_snoc_fresh' hfresh _, rfl, rfl, hneqb,
    lookupA_snoc_fresh' hfreshb _,
    lookupA_append_left _ _ _ _ hs, ?_⟩
  intro c
  constructor
  · rw [lookupA_setA_ne _ _ _ _ (Ne.symm hneqb)]
    exact lookupA_append_left _ _ _ _ hs
  · rw [lookupA_setA_ne _ _ _ _ hneqb]
    exact lookupA_snoc_fresh' hfreshb _

/-- C9 witness: the independence theorem applied to a concrete 3×2
32-bit source pix (buffer 0, 24 zero bytes) in an otherwise empty
state. -/
theorem copy_fresh_independent_witness :
    wfMem (pixCreate initMem 3 2 32).2 ∧
    (pixCreate initMem 3 2 32).2.allocFail = false ∧
    lookupA 0 (pixCreate initMem 3 2 32).2.pixes = some (smallPix 0) ∧
    (0 : Int) < (smallPix 0).w ∧ (0 : Int) < (smallPix 0).h ∧
    (smallPix 0).data = some 0 ∧
    lookupA 0 (pixCreate initMem 3 2 32).2.bufs = some (List.replicate 24 0) ∧
    (smallPix 0).wpl = ((smallPix 0).w * (smallPix 0).d + 31) / 32 ∧
    (List.replicate (24 : Nat) (0 : Nat)).length
      = (4 * (smallPix 0).wpl * (smallPix 0).h).toNat ∧
    (∃ pd px',
      (pixCopy (pixCreate initMem 3 2 32).2 none (some 0)).1 = some pd ∧
      pd ≠ 0 ∧
      lookupA pd (pixCopy (pixCreate initMem 3 2 32).2 none (some 0)).2.pixes
        = some px' ∧
      px'.refcount = 1 ∧
      px'.data = some (pixCreate initMem 3 2 32).2.nextBuf ∧
      (pixCreate initMem 3 2 32).2.nextBuf ≠ 0 ∧
      lookupA (pixCreate initMem 3 2 32).2.nextBuf
        (pixCopy (pixCreate initMem 3 2 32).2 none (some 0)).2.bufs
        = some (List.replicate 24 0) ∧
      lookupA 0 (pixCopy (pixCreate initMem 3 2 32).2 none (some 0)).2.bufs
        = some (List.replicate 24 0) ∧
      (∀ c : List Nat,
        lookupA 0 (setA (pixCreate initMem 3 2 32).2.nextBuf c
          (pixCopy (pixCreate initMem 3 2 32).2 none (some 0)).2.bufs)
          = some (List.replicate 24 0) ∧
        lookupA (pixCreate initMem 3 2 32).2.nextBuf (setA 0 c
          (pixCopy (pixCreate initMem 3 2 32).2 none (some 0)).2.bufs)
          = some (List.replicate 24 0))) :=
  ⟨by decide, rfl, by decide, by decide, by decide, rfl, by decide, by decide,
   by decide,
   copy_fresh_independent (pixCreate initMem 3 2 32).2 0 (smallPix 0) 0
     (List.replicate 24 0) (by decide) rfl (by decide)
     (by right; right; right; right; right; right; rfl)
     (by decide) (by decide) rfl (by decide) (by decide) (by decide)⟩

/-- `pixResizeImageData` between two distinct live identities of equal
width/height/depth is a pure no-op returning 0. -/
theorem pixResizeImageData_equal (m : Mem) (pd ps : PixId) (pxd pxs : Pix)
    (hne : pd ≠ ps)
    (hld : lookupA pd m.pixes = some pxd) (hls : lookupA ps m.pixes = some pxs)
    (hw : pxd.w = pxs.w) (hh : pxd.h = pxs.h) (hdd : pxd.d = pxs.d) :
    pixResizeImageData m (some pd) (some ps) = (0, m) := by
  have hsz : pixSizesEqual m (some ps) (some pd) = (1, m) := by
    simp only [pixSizesEqual]
    rw [if_neg (show ¬((some ps : Option PixId) = none ∨ (some pd : Option PixId) = none)
          from fun e => e.elim (fun e1 => Option.noConfusion e1)
            (fun e2 => Option.noConfusion e2)),
        if_neg (show ¬(some ps = some pd) from
          fun e => hne (Option.some.inj e).symm),
        pixGetWidth_live m ps pxs hls, pixGetWidth_live m pd pxd hld,
        pixGetHeight_live m ps pxs hls, pixGetHeight_live m pd pxd hld,
        pixGetDepth_live m ps pxs hls, pixGetDepth_live m pd pxd hld,
        if_neg (show ¬(pxs.w ≠ pxd.w ∨ pxs.h ≠ pxd.h ∨ pxs.d ≠ pxd.d) by
          simp [hw, hh, hdd])]
  simp only [pixResizeImageData]
  rw [if_neg (show ¬((some ps : Option PixId) = none) from fun e =>
        Option.noConfusion e),
      if_neg (show ¬((some pd : Option PixId) = none) from fun e =>
        Option.noConfusion e), hsz]
  simp

/-- C10: `copy(dest, src)` into an existing, distinct destination
identity whose width, height and depth all equal the source's performs
no reallocation: the destination's data pointer is unchanged (`bd`),
the source's bytes end up inside that same pre-existing allocation,
the buffer heap changes only at `bd`, and no fresh buffer address is
consumed. -/
theorem copy_same_geometry_inplace (m : Mem) (pd ps : PixId) (pxd pxs : Pix)
    (bd bs : BufId) (cd cs : List Nat)
    (hne : pd ≠ ps)
    (hld : lookupA pd m.pixes = some pxd) (hls : lookupA ps m.pixes = some pxs)
    (hw : pxd.w = pxs.w) (hh : pxd.h = pxs.h) (hdd : pxd.d = pxs.d)
    (hbd : pxd.data = some bd) (hbs : pxs.data = some bs)
    (hcd : lookupA bd m.bufs = some cd) (hcs : lookupA bs m.bufs = some cs)
    (hlend : cd.length = (4 * pxs.wpl * pxs.h).toNat)
    (hlens : cs.length = (4 * pxs.wpl * pxs.h).toNat) :
    (pixCopy m (some pd) (some ps)).1 = some pd ∧
    pixGetData (pixCopy m (some pd) (some ps)).2 (some pd) = some bd ∧
    (pixCopy m (some pd) (some ps)).2.bufs = setA bd cs m.bufs ∧
    lookupA bd (pixCopy m (some pd) (some ps)).2.bufs = some cs ∧
    (pixCopy m (some pd) (some ps)).2.nextBuf = m.nextBuf := by
  have hDget : ∀ v : Pix, lookupA pd (setA pd v m.pixes) = some v :=
    fun v => lookupA_setA_self _ _ _ _ hld
  have hSget : ∀ v : Pix, lookupA ps (setA pd v m.pixes) = some pxs := by
    intro v
    rw [lookupA_setA_ne _ _ _ _ (Ne.symm hne)]
    exact hls
  have htake : cs.take (4 * pxs.wpl * pxs.h).toNat = cs := by
    rw [← hlens]
    exact List.take_length cs
  have hdrop : cd.drop (4 * pxs.wpl * pxs.h).toNat = [] := by
    rw [← hlend]
    exact List.drop_length cd
  have hbdset : lookupA bd (setA bd cs m.bufs) = some cs :=
    lookupA_setA_self _ _ _ _ hcd
  have hmain : pixCopy m (some pd) (some ps)
      = (some pd,
         { (pixCopyText
             (pixCopyInputFormat
               (pixCopyResolution
                 (pixCopyColormap m (some pd) (some ps)).2
                 (some pd) (some ps)).2
               (some pd) (some ps)).2
             (some pd) (some ps)).2 with bufs := setA bd cs m.bufs }) := by
    simp only [pixCopy]
    rw [if_neg (show ¬((some ps : Option PixId) = none) from fun e =>
          Option.noConfusion e),
        if_neg (show ¬(some ps = some pd) from
          fun e => hne (Option.some.inj e).symm),
        pixGetWpl_live m ps pxs hls, pixGetHeight_live m ps pxs hls,
        pixResizeImageData_equal m pd ps pxd pxs hne hld hls hw hh hdd]
    rcases hscm : pxs.colormap with _ | c <;>
      rcases hdcm : pxd.colormap with _ | c' <;>
      simp [pixCopyColormap, pixCopyResolution, pixCopyInputFormat, pixCopyText,
        pixGetColormap, pixGetXRes, pixGetYRes, pixGetInputFormat, pixGetText,
        pixGetData, pixSetColormap, pixSetXRes, pixSetYRes, pixSetInputFormat,
        pixSetText, pixDestroyColormap, pixcmapCopy, stringReplace,
        Mem.setPix, Mem.logE, memcpyBuf,
        hld, hls, hDget, hSget, setA_setA, hscm, hdcm, hbd, hbs, hcd, hcs,
        htake, hdrop]
  rw [hmain]
  rcases hscm : pxs.colormap with _ | c <;>
    rcases hdcm : pxd.colormap with _ | c' <;>
    simp [pixCopyColormap, pixCopyResolution, pixCopyInputFormat, pixCopyText,
      pixGetColormap, pixGetXRes, pixGetYRes, pixGetInputFormat, pixGetText,
      pixGetData, pixSetColormap, pixSetXRes, pixSetYRes, pixSetInputFormat,
      pixSetText, pixDestroyColormap, pixcmapCopy, stringReplace,
      Mem.setPix, Mem.logE,
      hld, hls, hDget, hSget, setA_setA, hscm, hdcm, hbd, hbs, hbdset]

/-- C10 witness: the in-place copy theorem applied to two concrete 3×2
32-bit pixes (destination id 1 with buffer 1, source id 0 with buffer
0). -/
theorem copy_same_geometry_inplace_witness :
    (1 : PixId) ≠ 0 ∧
    lookupA 1 twoPixMem.pixes = some (smallPix 1) ∧
    lookupA 0 twoPixMem.pixes = some (smallPix 0) ∧
    lookupA 1 twoPixMem.bufs = some (List.replicate 24 0) ∧
    lookupA 0 twoPixMem.bufs = some (List.replicate 24 0) ∧
    ((pixCopy twoPixMem (some 1) (some 0)).1 = some 1 ∧
     pixGetData (pixCopy twoPixMem (some 1) (some 0)).2 (some 1) = some 1 ∧
     (pixCopy twoPixMem (some 1) (some 0)).2.bufs
       = setA 1 (List.replicate 24 0) twoPixMem.bufs ∧
     lookupA 1 (pixCopy twoPixMem (some 1) (some 0)).2.bufs
       = some (List.replicate 24 0) ∧
     (pixCopy twoPixMem (some 1) (some 0)).2.nextBuf = twoPixMem.nextBuf) :=
  ⟨by decide, by decide, by decide, by decide, by decide,
   copy_same_geometry_inplace twoPixMem 1 0 (smallPix 1) (smallPix 0) 1 0
     (List.replicate 24 0) (List.replicate 24 0)
     (by decide) (by decide) (by decide) rfl rfl rfl rfl rfl
     (by decide) (by decide) (by decide) (by decide)⟩

end Lepto
